import Mathlib

/-!
Verification of the sequential quantile-estimation engine of `A3.py`
(repository `CovXY`).

Shallow embedding conventions:
* Python floats are modelled as exact rationals `ℚ`; the samples produced by
  the sampler and the statistic transform are real values, embedded as `ℚ`.
* `numpy` arrays of floats are Lean lists `List ℚ`.
* Python integer indexing, which allows negative indices counting from the
  end of the sequence, is modelled by `pyGet` below.
* Python `int(x)` (truncation towards zero) is modelled by `pyInt`.
* `numpy.ndarray.sort` (in-place ascending sort) is modelled by `sortList`,
  a sorted permutation of its input.
* The random sampler `generate_R_samples` composed with the deterministic
  transform `lhs_quantity` is abstracted as an oracle
  `gen : SampleCall → List ℚ`: the engine only observes the list of
  transformed batch values, and the `attempt` field of a `SampleCall` stands
  for the state of the random number generator at that invocation.
* The persisted store file is modelled by the list of its parsed numeric
  lines (`List ℚ`) inside the engine; the raw line-level behaviour of
  `numpy.genfromtxt`, including malformed lines, is modelled separately by
  `Entry`/`genfromtxt_model`/`load_or_generate`.
-/

namespace CovXY

/- The Batteries library marks the arithmetic on `Rat` irreducible; restore
ordinary reducibility locally so that concrete witnesses and counterexamples
evaluate with `decide`. -/
attribute [local semireducible] Rat.add Rat.sub Rat.mul Rat.inv

/-- Python sequence indexing on a list of rationals: a nonnegative index is
read from the front, a negative index `i` reads position `length + i` from
the front (so `-1` is the last element).  Out-of-range accesses, which raise
`IndexError` in Python, are given the junk value `0`; no claim depends on an
out-of-range access. -/
def pyGet (l : List ℚ) (i : ℤ) : ℚ :=
  if 0 ≤ i then l.getD i.toNat 0 else l.getD (l.length - (-i).toNat) 0

/-- Python `int(x)` applied to a float: truncation towards zero. -/
def pyInt (q : ℚ) : ℤ :=
  if 0 ≤ q then ⌊q⌋ else ⌈q⌉

/-- Model of `numpy.ndarray.sort()`: sort ascending.  Any sorted permutation
of the input is an adequate model of the introsort used by numpy; we use
insertion sort for executability. -/
def sortList (l : List ℚ) : List ℚ :=
  l.insertionSort (· ≤ ·)

theorem sortList_sorted (l : List ℚ) : (sortList l).Sorted (· ≤ ·) :=
  List.sorted_insertionSort _ l

theorem sortList_perm (l : List ℚ) : List.Perm (sortList l) l :=
  List.perm_insertionSort _ l

theorem sortList_length (l : List ℚ) : (sortList l).length = l.length :=
  (sortList_perm l).length_eq

/-- `insert_new_elements(old_list, new_elements)` from `A3.py`: the linear
two-pointer merge of two sorted arrays.  The Python loop takes
`old_list[i]` while `old_list[i] < new_elements[j]`, otherwise takes
`new_elements[j]`; when one side is exhausted the other tail is copied. -/
def insert_new_elements : List ℚ → List ℚ → List ℚ
  | [], new_elements => new_elements
  | old_list, [] => old_list
  | a :: as, b :: bs =>
    if a < b then a :: insert_new_elements as (b :: bs)
    else b :: insert_new_elements (a :: as) bs
termination_by old_list new_elements => old_list.length + new_elements.length

theorem insert_new_elements_perm (old_list new_elements : List ℚ) :
    List.Perm (insert_new_elements old_list new_elements) (old_list ++ new_elements) := by
  induction old_list, new_elements using insert_new_elements.induct with
  | case1 new_elements => simp [insert_new_elements]
  | case2 old_list h => simp [insert_new_elements]
  | case3 a as b bs hab ih =>
    rw [insert_new_elements, if_pos hab]
    exact (ih.cons a)
  | case4 a as b bs hab ih =>
    rw [insert_new_elements, if_neg hab]
    exact (ih.cons b).trans List.perm_middle.symm

theorem insert_new_elements_length (old_list new_elements : List ℚ) :
    (insert_new_elements old_list new_elements).length =
      old_list.length + new_elements.length := by
  have := (insert_new_elements_perm old_list new_elements).length_eq
  simpa using this

theorem insert_new_elements_sorted (old_list new_elements : List ℚ)
    (h1 : old_list.Sorted (· ≤ ·)) (h2 : new_elements.Sorted (· ≤ ·)) :
    (insert_new_elements old_list new_elements).Sorted (· ≤ ·) := by
  induction old_list, new_elements using insert_new_elements.induct with
  | case1 new_elements => simpa [insert_new_elements] using h2
  | case2 old_list h => simpa [insert_new_elements] using h1
  | case3 a as b bs hab ih =>
    rw [insert_new_elements, if_pos hab]
    rw [List.sorted_cons] at h1 ⊢
    refine ⟨?_, ih h1.2 h2⟩
    intro y hy
    have hy' := (insert_new_elements_perm as (b :: bs)).subset hy
    rcases List.mem_append.1 hy' with hmem | hmem
    · exact h1.1 y hmem
    · rcases List.mem_cons.1 hmem with rfl | hmem
      · exact le_of_lt hab
      · exact le_trans (le_of_lt hab) ((List.sorted_cons.1 h2).1 y hmem)
  | case4 a as b bs hab ih =>
    rw [insert_new_elements, if_neg hab]
    rw [List.sorted_cons] at h2 ⊢
    refine ⟨?_, ih h1 h2.2⟩
    intro y hy
    have hba : b ≤ a := le_of_not_lt hab
    have hy' := (insert_new_elements_perm (a :: as) bs).subset hy
    rcases List.mem_append.1 hy' with hmem | hmem
    · rcases List.mem_cons.1 hmem with rfl | hmem
      · exact hba
      · exact le_trans hba ((List.sorted_cons.1 h1).1 y hmem)
    · exact h2.1 y hmem

/-- C2: for all sorted input sequences `A` and `B`, `insert_new_elements A B`
is sorted ascending and is a permutation (multiset equality, duplicates
preserved) of `A ++ B`; the tail-copy cases where one input is exhausted
first are covered by the universal quantification. -/
theorem claim_C2_merge_correct (A B : List ℚ)
    (hA : A.Sorted (· ≤ ·)) (hB : B.Sorted (· ≤ ·)) :
    (insert_new_elements A B).Sorted (· ≤ ·) ∧ List.Perm (insert_new_elements A B) (A ++ B) :=
  ⟨insert_new_elements_sorted A B hA hB, insert_new_elements_perm A B⟩

/-- Witness for C2 at the concrete input from the specification:
`A = [1,3,5]`, `B = [2,2,6]`. -/
theorem claim_C2_merge_correct_witness :
    ([1, 3, 5] : List ℚ).Sorted (· ≤ ·) ∧ ([2, 2, 6] : List ℚ).Sorted (· ≤ ·) ∧
      ((insert_new_elements [1, 3, 5] [2, 2, 6]).Sorted (· ≤ ·) ∧
        List.Perm (insert_new_elements [1, 3, 5] [2, 2, 6]) ([1, 3, 5] ++ [2, 2, 6])) :=
  ⟨by decide, by decide,
    claim_C2_merge_correct [1, 3, 5] [2, 2, 6] (by decide) (by decide)⟩

/-- Probability mass of a Binomial(N, p) variable at j (model of the
distribution used by `scipy.stats.binom`). -/
def binomPMF (N : ℕ) (p : ℚ) (j : ℕ) : ℚ :=
  (N.choose j : ℚ) * p ^ j * (1 - p) ^ (N - j)

/-- Cumulative distribution function of Binomial(N, p) at k. -/
def binomCdf (N : ℕ) (p : ℚ) (k : ℕ) : ℚ :=
  ∑ j ∈ Finset.range (k + 1), binomPMF N p j

theorem binomCdf_full (N : ℕ) (p : ℚ) : binomCdf N p N = 1 := by
  have h := add_pow p (1 - p) N
  have hp : p + (1 - p) = 1 := by ring
  calc binomCdf N p N
      = ∑ m ∈ Finset.range (N + 1), p ^ m * (1 - p) ^ (N - m) * (N.choose m : ℚ) :=
        Finset.sum_congr rfl (fun j hj => by unfold binomPMF; ring)
    _ = (p + (1 - p)) ^ N := h.symm
    _ = 1 := by rw [hp, one_pow]

/-- Model of `scipy.stats.binom.ppf(q, N, p)` for `0 < q ≤ 1`: the least
integer k in the support [0, N] such that `cdf(k) ≥ q` (for discrete
distributions scipy computes exactly this least rank).  If no k qualifies
(only possible for q > 1) the value is N + 1, outside the claims. -/
def binomPpf (N : ℕ) (p q : ℚ) : ℕ :=
  (List.range (N + 1)).findIdx (fun k => decide (q ≤ binomCdf N p k))

theorem binomPpf_le (N : ℕ) (p q : ℚ) (hq : q ≤ 1) : binomPpf N p q ≤ N := by
  have hmem : N ∈ List.range (N + 1) := List.mem_range.2 (Nat.lt_succ_self N)
  have hpred : (fun k => decide (q ≤ binomCdf N p k)) N = true := by
    show decide (q ≤ binomCdf N p N) = true
    rw [binomCdf_full]
    exact decide_eq_true hq
  have := @List.findIdx_lt_length_of_exists _ (fun k => decide (q ≤ binomCdf N p k))
    (List.range (N + 1)) ⟨N, hmem, hpred⟩
  rw [List.length_range] at this
  exact Nat.lt_succ_iff.1 this

theorem binomPpf_mono (N : ℕ) (p q1 q2 : ℚ) (h : q1 ≤ q2) :
    binomPpf N p q1 ≤ binomPpf N p q2 := by
  refine List.findIdx_le_findIdx ?_
  intro x hx hx2
  have := of_decide_eq_true hx2
  exact decide_eq_true (le_trans h this)

/-- `find_rs(p, sample_size, confidence)` from `A3.py`:
`r, s = binom.interval(confidence, sample_size, p)` followed by
`return (max(int(r)-1, 0), int(s)-1)`.  `scipy.stats.binom.interval(c, N, p)`
returns `(ppf((1-c)/2, N, p), ppf((1+c)/2, N, p))`; both values are
nonnegative integers, so the Python `int(...)` conversions are the identity
on them. -/
def find_rs (p : ℚ) (sample_size : ℕ) (confidence : ℚ) : ℤ × ℤ :=
  let r : ℕ := binomPpf sample_size p ((1 - confidence) / 2)
  let s : ℕ := binomPpf sample_size p ((1 + confidence) / 2)
  (max ((r : ℤ) - 1) 0, (s : ℤ) - 1)

/-- C1 counterexample: at p = 1/100, N = 1, confidence = 95/100 (all valid
inputs with N ≥ 1), `find_rs` returns (0, -1), so the claimed bound
`0 ≤ lo ≤ hi ≤ N - 1` fails (hi = -1 < lo = 0). -/
theorem claim_C1_counterexample :
    find_rs (1/100) 1 (95/100) = (0, -1) ∧
      ¬(0 ≤ (find_rs (1/100) 1 (95/100)).1 ∧
        (find_rs (1/100) 1 (95/100)).1 ≤ (find_rs (1/100) 1 (95/100)).2 ∧
        (find_rs (1/100) 1 (95/100)).2 ≤ (1 : ℤ) - 1) := by
  refine ⟨by decide, ?_⟩
  intro h
  have h2 := h.2.1
  have h3 : find_rs (1/100) 1 (95/100) = (0, -1) := by decide
  rw [h3] at h2
  exact absurd h2 (by decide)

/-- C1 amended: for p in (0,1), N ≥ 1 and confidence in (0,1), `find_rs`
(the two-sided Binomial(N,p) interval with 1 subtracted from each bound and
lo clamped at 0) returns (lo, hi) with `0 ≤ lo ≤ N-1` and
`-1 ≤ hi ≤ N-1`, and `lo ≤ hi` whenever `hi ≥ 0`; `hi` can be -1 (so
`lo ≤ hi` fails) exactly when the upper binomial bound is the rank 0. -/
theorem claim_C1_amended (p confidence : ℚ) (N : ℕ) (hN : 1 ≤ N)
    (hp0 : 0 < p) (hp1 : p < 1) (hc0 : 0 < confidence) (hc1 : confidence < 1) :
    0 ≤ (find_rs p N confidence).1 ∧
    (find_rs p N confidence).1 ≤ (N : ℤ) - 1 ∧
    (-1 : ℤ) ≤ (find_rs p N confidence).2 ∧
    (find_rs p N confidence).2 ≤ (N : ℤ) - 1 ∧
    (0 ≤ (find_rs p N confidence).2 →
      (find_rs p N confidence).1 ≤ (find_rs p N confidence).2) := by
  have hr_le : binomPpf N p ((1 - confidence) / 2) ≤ N :=
    binomPpf_le N p _ (by linarith)
  have hs_le : binomPpf N p ((1 + confidence) / 2) ≤ N :=
    binomPpf_le N p _ (by linarith)
  have hrs : binomPpf N p ((1 - confidence) / 2) ≤ binomPpf N p ((1 + confidence) / 2) :=
    binomPpf_mono N p _ _ (by linarith)
  have hrZ : (binomPpf N p ((1 - confidence) / 2) : ℤ) ≤ (N : ℤ) := by exact_mod_cast hr_le
  have hsZ : (binomPpf N p ((1 + confidence) / 2) : ℤ) ≤ (N : ℤ) := by exact_mod_cast hs_le
  have hrsZ : (binomPpf N p ((1 - confidence) / 2) : ℤ) ≤
      (binomPpf N p ((1 + confidence) / 2) : ℤ) := by exact_mod_cast hrs
  have hNZ : (1 : ℤ) ≤ (N : ℤ) := by exact_mod_cast hN
  have hs0 : (0 : ℤ) ≤ (binomPpf N p ((1 + confidence) / 2) : ℤ) := Int.ofNat_nonneg _
  refine ⟨?_, ?_, ?_, ?_, ?_⟩
  · show (0 : ℤ) ≤ max ((binomPpf N p ((1 - confidence) / 2) : ℤ) - 1) 0
    exact le_max_right _ _
  · show max ((binomPpf N p ((1 - confidence) / 2) : ℤ) - 1) 0 ≤ (N : ℤ) - 1
    exact max_le (by omega) (by omega)
  · show (-1 : ℤ) ≤ (binomPpf N p ((1 + confidence) / 2) : ℤ) - 1
    omega
  · show (binomPpf N p ((1 + confidence) / 2) : ℤ) - 1 ≤ (N : ℤ) - 1
    omega
  · intro hpos
    have hpos2 : (0 : ℤ) ≤ (binomPpf N p ((1 + confidence) / 2) : ℤ) - 1 := hpos
    show max ((binomPpf N p ((1 - confidence) / 2) : ℤ) - 1) 0 ≤
      (binomPpf N p ((1 + confidence) / 2) : ℤ) - 1
    exact max_le (by omega) hpos2

/-- Witness for the amended C1 at p = 1/2, N = 4, confidence = 9/10:
`find_rs` returns (0, 3) and all the amended bounds hold. -/
theorem claim_C1_amended_witness :
    0 ≤ (find_rs (1/2) 4 (9/10)).1 ∧
    (find_rs (1/2) 4 (9/10)).1 ≤ (4 : ℤ) - 1 ∧
    (-1 : ℤ) ≤ (find_rs (1/2) 4 (9/10)).2 ∧
    (find_rs (1/2) 4 (9/10)).2 ≤ (4 : ℤ) - 1 ∧
    (0 ≤ (find_rs (1/2) 4 (9/10)).2 →
      (find_rs (1/2) 4 (9/10)).1 ≤ (find_rs (1/2) 4 (9/10)).2) :=
  claim_C1_amended (1/2) (9/10) 4 (by decide) (by decide) (by decide)
    (by decide) (by decide)

theorem pyGet_nonneg (l : List ℚ) (i : ℤ) (h0 : 0 ≤ i) (h : i.toNat < l.length) :
    pyGet l i = l.get ⟨i.toNat, h⟩ := by
  unfold pyGet
  rw [if_pos h0]
  show l.getD i.toNat 0 = _
  rw [List.getD_eq_getElem l 0 h, List.get_eq_getElem]

theorem pyGet_zero (l : List ℚ) (h : l ≠ []) : pyGet l 0 = l.head h := by
  unfold pyGet
  rw [if_pos (le_refl (0 : ℤ))]
  show l.getD 0 0 = l.head h
  rw [List.getD_eq_getElem l 0 (List.length_pos.2 h), List.head_eq_getElem]

theorem pyGet_neg_one (l : List ℚ) (h : l ≠ []) : pyGet l (-1) = l.getLast h := by
  unfold pyGet
  rw [if_neg (by decide : ¬(0 : ℤ) ≤ -1)]
  show l.getD (l.length - 1) 0 = l.getLast h
  have hlen : l.length - 1 < l.length := Nat.sub_lt (List.length_pos.2 h) Nat.one_pos
  rw [List.getD_eq_getElem l 0 hlen, List.getLast_eq_getElem]

/-- `meets_tolerances(samples, pairs_list, abs_tolerance, rel_tolerance)`
from `A3.py`.  `samples` is assumed sorted; the sample range is
`samples[-1] - samples[0]` (Python index -1 reads the last element); each
pair `(r, s)` is checked with `samples[s] - samples[r] > tolerance`, and the
first failure returns `False` after printing a diagnostic line.  The print
does not influence the returned value, so the early-returning loop is the
conjunction `List.all`. -/
def meets_tolerances (samples : List ℚ) (pairs_list : List (ℤ × ℤ))
    (abs_tolerance rel_tolerance : ℚ) : Bool :=
  let width := pyGet samples (-1) - pyGet samples 0
  let tolerance := min abs_tolerance (rel_tolerance * width)
  pairs_list.all (fun rs => !(decide (pyGet samples rs.2 - pyGet samples rs.1 > tolerance)))

/-- C3: for a sorted non-empty sample list and any rank pairs,
`meets_tolerances` is true exactly when, with
`tolerance = min abs_tolerance (rel_tolerance * (samples[last] - samples[first]))`,
every requested pair `(lo, hi)` satisfies
`samples[hi] - samples[lo] ≤ tolerance` — a conjunction over all pairs. -/
theorem claim_C3_tolerance_conjunction (samples : List ℚ)
    (pairs_list : List (ℤ × ℤ)) (abs_tolerance rel_tolerance : ℚ)
    (hne : samples ≠ []) (hsorted : samples.Sorted (· ≤ ·)) :
    meets_tolerances samples pairs_list abs_tolerance rel_tolerance = true ↔
      ∀ rs ∈ pairs_list,
        pyGet samples rs.2 - pyGet samples rs.1 ≤
          min abs_tolerance
            (rel_tolerance * (samples.getLast hne - samples.head hne)) := by
  unfold meets_tolerances
  rw [pyGet_neg_one samples hne, pyGet_zero samples hne, List.all_eq_true]
  constructor
  · intro h rs hrs
    have := h rs hrs
    simp only [Bool.not_eq_true', decide_eq_false_iff_not, not_lt] at this
    exact this
  · intro h rs hrs
    simp only [Bool.not_eq_true', decide_eq_false_iff_not, not_lt]
    exact h rs hrs

/-- Witness for C3: samples `[0,1,2,3]`, one rank pair `(0,3)`, absolute and
relative tolerance 1: the interval width 3 exceeds
`min 1 (1*3) = 1`, so `meets_tolerances` is false, matching the
right-hand side of the equivalence. -/
theorem claim_C3_tolerance_conjunction_witness :
    meets_tolerances [0, 1, 2, 3] [(0, 3)] 1 1 = true ↔
      ∀ rs ∈ [((0 : ℤ), (3 : ℤ))],
        pyGet [0, 1, 2, 3] rs.2 - pyGet [0, 1, 2, 3] rs.1 ≤
          min 1 (1 * (([0, 1, 2, 3] : List ℚ).getLast (by decide) -
            ([0, 1, 2, 3] : List ℚ).head (by decide))) :=
  claim_C3_tolerance_conjunction [0, 1, 2, 3] [(0, 3)] 1 1 (by decide) (by decide)

/-- Arguments of one invocation of the sampling pipeline
`lhs_quantity(generate_R_samples(n, m, dim, k, count, shrinkage_factor), n, k, dim)`
inside `compute_quantiles`.  The field `attempt` records which invocation it
is — the state of the global random number generator — so distinct
invocations may return distinct batches; invocation 0 is the initial batch
of the `except` branch, invocation `t ≥ 1` the batch of loop attempt `t`. -/
structure SampleCall where
  n : ℕ
  m : ℤ
  dim : ℕ
  k : ℕ
  count : ℕ
  shrinkage : ℚ
  attempt : ℕ
deriving DecidableEq

/-- In-memory state of the retry loop of `compute_quantiles`: the in-memory
collection (`samples`), the contents of the persisted store file, the
tracked count `N` and the attempt counter (initialised to 1). -/
structure QState where
  samples : List ℚ
  store : List ℚ
  N : ℕ
  attempts : ℕ
deriving DecidableEq

/-- The initial load-or-generate and sort phase of `compute_quantiles`
(`A3.py` lines 199-215).  Without a filename the function raises the
configuration exception.  With one, the store file is loaded if it can be
(`np.genfromtxt`); in the `except` branch (a missing file) one initial
batch is generated by the sampling pipeline and appended to the file.
Either way the collection is then sorted, `N = samples.size`,
`attempts = 1`, and the initial rank pairs are `find_rs(p, N, confidence)`
(computed by `loopCheck` below from `N`). -/
def initEngine (gen : SampleCall → List ℚ) (n : ℕ) (m : ℤ) (dim k : ℕ)
    (batch_size : ℕ) (hasFilename : Bool) (store : Option (List ℚ))
    (shrinkage_factor : ℚ) : Except String QState :=
  if hasFilename then
    match store with
    | some vals =>
        .ok { samples := sortList vals, store := vals,
              N := vals.length, attempts := 1 }
    | none =>
        let batch0 := gen ⟨n, m, dim, k, batch_size, shrinkage_factor, 0⟩
        .ok { samples := sortList batch0, store := batch0,
              N := batch0.length, attempts := 1 }
  else
    .error "Please provide a filename for the data (even if the data file does not exist yet)."

/-- The list `pairs_list`, recomputed from the current `N` whenever `N`
changes: `find_rs(p, N, confidence)` for every requested quantile. -/
def pairsFor (required_quantiles : List ℚ) (N : ℕ) (confidence : ℚ) :
    List (ℤ × ℤ) :=
  required_quantiles.map (fun p => find_rs p N confidence)

/-- The guard `meets_tolerances(samples, pairs_list, abs_tolerance,
rel_tolerance)` of the `while` loop, with `pairs_list` the pairs for the
current `N`. -/
def loopCheck (required_quantiles : List ℚ)
    (abs_tolerance rel_tolerance confidence : ℚ) (st : QState) : Bool :=
  meets_tolerances st.samples (pairsFor required_quantiles st.N confidence)
    abs_tolerance rel_tolerance

/-- One iteration of the retry loop body (`A3.py` lines 218-235): when
`attempts % 10 == 0` the in-memory collection is first discarded and
replaced by the freshly loaded full store, with `N = samples.size`, and
sorted; then a new batch is generated, appended (unsorted) to the store
file, itself sorted, and merged into the collection with
`insert_new_elements`; `N` grows by `batch_size` and the attempt counter
advances.  (The Python code increments `attempts` just before generating;
the increment does not influence the generated batch, which is indexed here
by the pre-increment value.) -/
def loopStep (gen : SampleCall → List ℚ) (n : ℕ) (m : ℤ)
    (dim k batch_size : ℕ) (shrinkage_factor : ℚ) (st : QState) : QState :=
  let st1 := if st.attempts % 10 = 0 then
      { st with samples := sortList st.store, N := st.store.length }
    else st
  let new_samples := gen ⟨n, m, dim, k, batch_size, shrinkage_factor, st1.attempts⟩
  { samples := insert_new_elements st1.samples (sortList new_samples),
    store := st1.store ++ new_samples,
    N := st1.N + batch_size,
    attempts := st1.attempts + 1 }

/-- The retry loop `while not meets_tolerances(...)`.  The Python loop has
no iteration bound; `fuel` bounds the recursion of the model, with `none`
meaning the loop did not terminate within `fuel` iterations. -/
def loopRun (gen : SampleCall → List ℚ) (required_quantiles : List ℚ)
    (abs_tolerance rel_tolerance confidence : ℚ) (n : ℕ) (m : ℤ)
    (dim k batch_size : ℕ) (shrinkage_factor : ℚ) :
    ℕ → QState → Option QState
  | 0, _ => none
  | fuel + 1, st =>
    if loopCheck required_quantiles abs_tolerance rel_tolerance confidence st
    then some st
    else loopRun gen required_quantiles abs_tolerance rel_tolerance confidence
      n m dim k batch_size shrinkage_factor fuel
      (loopStep gen n m dim k batch_size shrinkage_factor st)

/-- The point estimate `samples[int(p * N) - 1]` for one requested
quantile probability `p` (line 238 of `A3.py`). -/
def quantileAt (samples : List ℚ) (N : ℕ) (p : ℚ) : ℚ :=
  pyGet samples (pyInt (p * (N : ℚ)) - 1)

/-- The final extraction loop of `compute_quantiles` (lines 236-239): one
point estimate per requested probability, in request order. -/
def extractQuantiles (required_quantiles : List ℚ) (st : QState) : List ℚ :=
  required_quantiles.map (fun p => quantileAt st.samples st.N p)

/-- `compute_quantiles` of `A3.py`, with the sampling pipeline abstracted
as `gen`, the store file as `hasFilename`/`store` and the unbounded retry
loop bounded by `fuel`.  Returns `.error` on the configuration failure,
`.ok none` when the loop has not terminated within `fuel` iterations, and
`.ok (some qs)` with the point estimates on termination. -/
def compute_quantiles (gen : SampleCall → List ℚ)
    (required_quantiles : List ℚ)
    (abs_tolerance rel_tolerance confidence : ℚ) (n : ℕ) (m : ℤ)
    (dim k batch_size : ℕ) (hasFilename : Bool) (store : Option (List ℚ))
    (shrinkage_factor : ℚ) (fuel : ℕ) : Except String (Option (List ℚ)) :=
  match initEngine gen n m dim k batch_size hasFilename store shrinkage_factor with
  | .error e => .error e
  | .ok st0 =>
    match loopRun gen required_quantiles abs_tolerance rel_tolerance confidence
        n m dim k batch_size shrinkage_factor fuel st0 with
    | none => .ok none
    | some st => .ok (some (extractQuantiles required_quantiles st))

/-- `ten_percentiles(n, tau, dim, k, batch_size, abs_tolerance,
rel_tolerance, confidence, filename, shrinkage_factor)` of `A3.py`:
`m = int(n * tau)`, the requested quantiles are the nine deciles
`linspace(0.1, 0.9, 9)`, and the Python call
`compute_quantiles(desired_quantiles, abs_tolerance, rel_tolerance,
confidence, n, m, dim, k, batch_size, filename)` passes no shrinkage
factor, so `compute_quantiles` runs with its own default `0.99`, whatever
`shrinkage_factor` was given to `ten_percentiles`. -/
def ten_percentiles (gen : SampleCall → List ℚ) (n : ℕ) (tau : ℚ)
    (dim k batch_size : ℕ) (abs_tolerance rel_tolerance confidence : ℚ)
    (hasFilename : Bool) (store : Option (List ℚ)) (shrinkage_factor : ℚ)
    (fuel : ℕ) : Except String (Option (List ℚ)) :=
  let m := pyInt ((n : ℚ) * tau)
  compute_quantiles gen
    [1/10, 2/10, 3/10, 4/10, 5/10, 6/10, 7/10, 8/10, 9/10]
    abs_tolerance rel_tolerance confidence n m dim k batch_size
    hasFilename store (99/100) fuel

/-- Invariant of the retry loop: the tracked `N` equals the size of the
in-memory collection, and the collection is sorted. -/
def EngineInv (st : QState) : Prop :=
  st.N = st.samples.length ∧ st.samples.Sorted (· ≤ ·)

theorem initEngine_inv (gen : SampleCall → List ℚ) (n : ℕ) (m : ℤ)
    (dim k batch_size : ℕ) (hasFilename : Bool) (store : Option (List ℚ))
    (shrinkage_factor : ℚ) (st0 : QState)
    (h : initEngine gen n m dim k batch_size hasFilename store shrinkage_factor =
      .ok st0) : EngineInv st0 := by
  unfold initEngine at h
  cases hasFilename with
  | false => simp at h
  | true =>
    cases store with
    | some vals =>
      simp only [if_pos] at h
      injection h with h'
      rw [← h']
      exact ⟨(sortList_length vals).symm, sortList_sorted vals⟩
    | none =>
      simp only [if_pos] at h
      injection h with h'
      rw [← h']
      exact ⟨(sortList_length _).symm, sortList_sorted _⟩

theorem loopStep_inv (gen : SampleCall → List ℚ) (n : ℕ) (m : ℤ)
    (dim k batch_size : ℕ) (shrinkage_factor : ℚ) (st : QState)
    (hgen : ∀ c : SampleCall, (gen c).length = c.count)
    (hinv : EngineInv st) :
    EngineInv (loopStep gen n m dim k batch_size shrinkage_factor st) := by
  unfold loopStep
  set st1 := if st.attempts % 10 = 0 then
      { st with samples := sortList st.store, N := st.store.length }
    else st with hst1
  have hinv1 : EngineInv st1 := by
    rw [hst1]
    split
    · exact ⟨(sortList_length st.store).symm, sortList_sorted st.store⟩
    · exact hinv
  constructor
  · show st1.N + batch_size =
      (insert_new_elements st1.samples (sortList (gen _))).length
    rw [insert_new_elements_length, sortList_length, hgen, hinv1.1]
  · exact insert_new_elements_sorted _ _ hinv1.2 (sortList_sorted _)

theorem loopRun_some (gen : SampleCall → List ℚ) (required_quantiles : List ℚ)
    (abs_tolerance rel_tolerance confidence : ℚ) (n : ℕ) (m : ℤ)
    (dim k batch_size : ℕ) (shrinkage_factor : ℚ) :
    ∀ (fuel : ℕ) (st st' : QState),
      loopRun gen required_quantiles abs_tolerance rel_tolerance confidence
        n m dim k batch_size shrinkage_factor fuel st = some st' →
      loopCheck required_quantiles abs_tolerance rel_tolerance confidence st' = true ∧
      ((∀ c : SampleCall, (gen c).length = c.count) → EngineInv st → EngineInv st') := by
  intro fuel
  induction fuel with
  | zero => intro st st' h; simp [loopRun] at h
  | succ fuel ih =>
    intro st st' h
    rw [loopRun] at h
    by_cases hc : loopCheck required_quantiles abs_tolerance rel_tolerance confidence st = true
    · rw [if_pos hc] at h
      injection h with h'
      rw [← h']
      exact ⟨hc, fun _ hi => hi⟩
    · rw [if_neg hc] at h
      have hrec := ih _ _ h
      exact ⟨hrec.1, fun hg hi => hrec.2 hg
        (loopStep_inv gen n m dim k batch_size shrinkage_factor st hg hi)⟩

/-- C5: whenever `compute_quantiles` terminates normally (returning a value),
the tolerance check held at the final state, the final collection is sorted
with `N` its size, and the returned list has, for each requested probability
`p` in request order, the sample at zero-based rank
`floor(p * N) - 1` of the sorted collection (through Python indexing, which
reads index -1 as the last element). -/
theorem claim_C5_point_estimates (gen : SampleCall → List ℚ)
    (required_quantiles : List ℚ)
    (abs_tolerance rel_tolerance confidence : ℚ) (n : ℕ) (m : ℤ)
    (dim k batch_size : ℕ) (hasFilename : Bool) (store : Option (List ℚ))
    (shrinkage_factor : ℚ) (fuel : ℕ) (qs : List ℚ)
    (hgen : ∀ c : SampleCall, (gen c).length = c.count)
    (hp : ∀ p ∈ required_quantiles, (0 : ℚ) ≤ p)
    (h : compute_quantiles gen required_quantiles abs_tolerance rel_tolerance
      confidence n m dim k batch_size hasFilename store shrinkage_factor fuel =
      .ok (some qs)) :
    ∃ st : QState,
      loopCheck required_quantiles abs_tolerance rel_tolerance confidence st = true ∧
      st.samples.Sorted (· ≤ ·) ∧
      st.N = st.samples.length ∧
      qs = required_quantiles.map
        (fun p => pyGet st.samples (⌊p * (st.samples.length : ℚ)⌋ - 1)) := by
  unfold compute_quantiles at h
  cases h1 : initEngine gen n m dim k batch_size hasFilename store shrinkage_factor with
  | error e => rw [h1] at h; exact absurd h (by simp)
  | ok st0 =>
    rw [h1] at h
    dsimp only at h
    cases h2 : loopRun gen required_quantiles abs_tolerance rel_tolerance confidence
        n m dim k batch_size shrinkage_factor fuel st0 with
    | none => rw [h2] at h; exact absurd h (by simp)
    | some st =>
      rw [h2] at h
      have hqs : qs = extractQuantiles required_quantiles st := by
        injection h with h'
        injection h' with h''
        exact h''.symm
      have hrun := loopRun_some gen required_quantiles abs_tolerance rel_tolerance
        confidence n m dim k batch_size shrinkage_factor fuel st0 st h2
      have hinv := hrun.2 hgen
        (initEngine_inv gen n m dim k batch_size hasFilename store shrinkage_factor st0 h1)
      refine ⟨st, hrun.1, hinv.2, hinv.1, ?_⟩
      rw [hqs]
      unfold extractQuantiles quantileAt
      apply List.map_congr_left
      intro p hpmem
      have hp0 : (0 : ℚ) ≤ p := hp p hpmem
      have hnn : (0 : ℚ) ≤ p * (st.N : ℚ) := mul_nonneg hp0 (by positivity)
      have hpi : pyInt (p * (st.N : ℚ)) = ⌊p * (st.N : ℚ)⌋ := by
        unfold pyInt; rw [if_pos hnn]
      rw [hpi, hinv.1]

/-- C6: with no filename, `compute_quantiles` raises the configuration
exception — the same fatal error for every sampler, store content and fuel,
so no samples are generated, persisted or returned. -/
theorem claim_C6_no_filename_fatal (gen : SampleCall → List ℚ)
    (required_quantiles : List ℚ)
    (abs_tolerance rel_tolerance confidence : ℚ) (n : ℕ) (m : ℤ)
    (dim k batch_size : ℕ) (store : Option (List ℚ)) (shrinkage_factor : ℚ)
    (fuel : ℕ) :
    compute_quantiles gen required_quantiles abs_tolerance rel_tolerance
      confidence n m dim k batch_size false store shrinkage_factor fuel =
    .error "Please provide a filename for the data (even if the data file does not exist yet)." :=
  rfl

/-- C7: a missing store file (`store = none`) is not an error: the engine
initialises successfully; the seed collection is the sorted single initial
batch obtained from the sampling pipeline (invocation 0), and exactly that
batch is appended to the previously missing store; the seed is a
permutation of what was persisted. -/
theorem claim_C7_missing_store_seed (gen : SampleCall → List ℚ) (n : ℕ)
    (m : ℤ) (dim k batch_size : ℕ) (shrinkage_factor : ℚ) :
    initEngine gen n m dim k batch_size true none shrinkage_factor =
      .ok { samples := sortList (gen ⟨n, m, dim, k, batch_size, shrinkage_factor, 0⟩),
            store := gen ⟨n, m, dim, k, batch_size, shrinkage_factor, 0⟩,
            N := (gen ⟨n, m, dim, k, batch_size, shrinkage_factor, 0⟩).length,
            attempts := 1 } ∧
    List.Perm (sortList (gen ⟨n, m, dim, k, batch_size, shrinkage_factor, 0⟩))
      (gen ⟨n, m, dim, k, batch_size, shrinkage_factor, 0⟩) :=
  ⟨rfl, sortList_perm _⟩

/-- C8: in one iteration of the retry loop, exactly when the attempt counter
is a multiple of 10 the in-memory collection is discarded and replaced by
the freshly loaded and sorted full store contents before the new batch is
generated, appended, sorted and merged; on every other attempt the existing
collection is kept and only merged with the new sorted batch.  In both
cases the raw batch is appended to the store and the counter advances. -/
theorem claim_C8_periodic_reload (gen : SampleCall → List ℚ) (n : ℕ) (m : ℤ)
    (dim k batch_size : ℕ) (shrinkage_factor : ℚ) (st : QState) :
    (st.attempts % 10 = 0 →
      loopStep gen n m dim k batch_size shrinkage_factor st =
        { samples := insert_new_elements (sortList st.store)
            (sortList (gen ⟨n, m, dim, k, batch_size, shrinkage_factor, st.attempts⟩)),
          store := st.store ++ gen ⟨n, m, dim, k, batch_size, shrinkage_factor, st.attempts⟩,
          N := st.store.length + batch_size,
          attempts := st.attempts + 1 }) ∧
    (st.attempts % 10 ≠ 0 →
      loopStep gen n m dim k batch_size shrinkage_factor st =
        { samples := insert_new_elements st.samples
            (sortList (gen ⟨n, m, dim, k, batch_size, shrinkage_factor, st.attempts⟩)),
          store := st.store ++ gen ⟨n, m, dim, k, batch_size, shrinkage_factor, st.attempts⟩,
          N := st.N + batch_size,
          attempts := st.attempts + 1 }) := by
  constructor
  · intro h10
    simp [loopStep, h10]
  · intro h10
    simp [loopStep, h10]

/-- C9: `ten_percentiles` ignores its `shrinkage_factor` argument: two runs
differing only in that argument coincide, and both equal the
`compute_quantiles` call on the nine deciles with the default shrinkage
factor 0.99. -/
theorem claim_C9_shrinkage_ignored (gen : SampleCall → List ℚ) (n : ℕ)
    (tau : ℚ) (dim k batch_size : ℕ)
    (abs_tolerance rel_tolerance confidence : ℚ) (hasFilename : Bool)
    (store : Option (List ℚ)) (s1 s2 : ℚ) (fuel : ℕ) :
    ten_percentiles gen n tau dim k batch_size abs_tolerance rel_tolerance
        confidence hasFilename store s1 fuel =
      ten_percentiles gen n tau dim k batch_size abs_tolerance rel_tolerance
        confidence hasFilename store s2 fuel ∧
    ten_percentiles gen n tau dim k batch_size abs_tolerance rel_tolerance
        confidence hasFilename store s1 fuel =
      compute_quantiles gen [1/10, 2/10, 3/10, 4/10, 5/10, 6/10, 7/10, 8/10, 9/10]
        abs_tolerance rel_tolerance confidence n (pyInt ((n : ℚ) * tau)) dim k
        batch_size hasFilename store (99/100) fuel :=
  ⟨rfl, rfl⟩

/-- C10: when `p * N < 1` (with `p ≥ 0`), the extraction index
`int(p * N) - 1` equals -1 and the point estimate `samples[int(p*N)-1]`
evaluated by `compute_quantiles` is the last (largest) element of the
sorted collection — Python wraps index -1 — rather than an out-of-range
failure. -/
theorem claim_C10_rank_underflow (samples : List ℚ) (N : ℕ) (p : ℚ)
    (hne : samples ≠ []) (hp : 0 ≤ p) (hlt : p * (N : ℚ) < 1) :
    pyInt (p * (N : ℚ)) - 1 = -1 ∧
    quantileAt samples N p = samples.getLast hne := by
  have hnn : (0 : ℚ) ≤ p * (N : ℚ) := mul_nonneg hp (by positivity)
  have hfl : ⌊p * (N : ℚ)⌋ = 0 := by
    rw [Int.floor_eq_zero_iff]
    exact ⟨hnn, hlt⟩
  have hpy : pyInt (p * (N : ℚ)) = 0 := by
    unfold pyInt
    rw [if_pos hnn, hfl]
  constructor
  · rw [hpy]
    decide
  · unfold quantileAt
    rw [hpy]
    show pyGet samples (-1) = samples.getLast hne
    exact pyGet_neg_one samples hne

/-- Witness for C10: samples `[3, 7]`, `N = 2`, `p = 1/4`:
`p * N = 1/2 < 1`, the index is -1 and the estimate is the largest
sample 7. -/
theorem claim_C10_rank_underflow_witness :
    pyInt ((1 : ℚ)/4 * ((2 : ℕ) : ℚ)) - 1 = -1 ∧
    quantileAt [3, 7] 2 (1/4) = ([3, 7] : List ℚ).getLast (by decide) :=
  claim_C10_rank_underflow [3, 7] 2 (1/4) (by decide) (by norm_num) (by norm_num)

/-- One line of the persisted store file: a numeric line, or a malformed
(non-numeric) one. -/
inductive Entry where
  | num (q : ℚ)
  | malformed
deriving DecidableEq

/-- A Python float value: an ordinary number, or the IEEE NaN. -/
inductive PyVal where
  | val (q : ℚ)
  | nan
deriving DecidableEq

/-- Model of `numpy.genfromtxt` on a single-column text file: every line is
converted to a float; a line that cannot be parsed as a number is silently
converted to NaN (`genfromtxt` is the numpy loader designed to handle
missing and invalid data; it raises no error on a non-numeric field in a
single-column file). -/
def genfromtxt_model (lines : List Entry) : List PyVal :=
  lines.map (fun e =>
    match e with
    | .num q => .val q
    | .malformed => .nan)

/-- The load step of `compute_quantiles` (`A3.py` lines 200-207) at
file-line level: `try: samples = np.genfromtxt(filename)` with a bare
`except:` that generates an initial batch and saves it.  With a filename
and a present single-column store the load always succeeds, malformed lines
becoming NaN; with a missing store the `except` branch generates the
initial batch `batch0` and persists it; without a filename the
configuration exception is raised. -/
def load_or_generate (hasFilename : Bool) (store : Option (List Entry))
    (batch0 : List ℚ) : Except String (List PyVal × List Entry) :=
  if hasFilename then
    match store with
    | some lines => .ok (genfromtxt_model lines, lines)
    | none => .ok (batch0.map PyVal.val, batch0.map Entry.num)
  else
    .error "Please provide a filename for the data (even if the data file does not exist yet)."

/-- C4 counterexample: loading a store whose second line is malformed is
not a fatal parse failure: the load step of `compute_quantiles` succeeds,
silently substituting NaN for the malformed line, and the run continues —
contradicting the claimed abort with no silent substitution. -/
theorem claim_C4_counterexample :
    load_or_generate true (some [Entry.num 1, Entry.malformed]) [] =
      Except.ok ([PyVal.val 1, PyVal.nan], [Entry.num 1, Entry.malformed]) :=
  rfl

/-- C4 amended: malformed (non-numeric) store lines are not fatal: the
loader (`np.genfromtxt`) succeeds on any present store, substituting NaN
for each malformed line, and the computation proceeds with those values;
nothing is reported and no abort happens (a loader exception would even be
swallowed by the bare `except`, which regenerates an initial batch
instead). -/
theorem claim_C4_amended (lines : List Entry) (batch0 : List ℚ) :
    load_or_generate true (some lines) batch0 =
      Except.ok (genfromtxt_model lines, lines) ∧
    (Entry.malformed ∈ lines → PyVal.nan ∈ genfromtxt_model lines) := by
  refine ⟨rfl, ?_⟩
  intro hmem
  exact List.mem_map.2 ⟨Entry.malformed, hmem, rfl⟩

/-- Witness for the amended C4 at the concrete store `[1.0, malformed]`. -/
theorem claim_C4_amended_witness :
    (load_or_generate true (some [Entry.num 1, Entry.malformed]) [] =
      Except.ok (genfromtxt_model [Entry.num 1, Entry.malformed],
        [Entry.num 1, Entry.malformed])) ∧
    PyVal.nan ∈ genfromtxt_model [Entry.num 1, Entry.malformed] :=
  ⟨(claim_C4_amended [Entry.num 1, Entry.malformed] []).1,
   (claim_C4_amended [Entry.num 1, Entry.malformed] []).2 (by decide)⟩

/-- Witness for C5: a two-sample store `[0, 1]`, one requested quantile
1/2, generous tolerances 10, confidence 9/10 and fuel 1: the run returns
`[0]` and the final state satisfies all the stated properties. -/
theorem claim_C5_point_estimates_witness :
    ∃ st : QState,
      loopCheck [1/2] 10 10 (9/10) st = true ∧
      st.samples.Sorted (· ≤ ·) ∧
      st.N = st.samples.length ∧
      [0] = ([1/2] : List ℚ).map
        (fun p => pyGet st.samples (⌊p * (st.samples.length : ℚ)⌋ - 1)) :=
  claim_C5_point_estimates (fun c => List.replicate c.count 0) [1/2] 10 10 (9/10)
    1 1 2 1 2 true (some [0, 1]) (99/100) 1 [0]
    (fun c => List.length_replicate c.count 0)
    (by intro p hp; rw [List.mem_singleton] at hp; rw [hp]; norm_num)
    rfl

/-- Witness for C8: at attempt counter 10 the collection `[4]` is replaced
by the sorted store before merging the new batch `[5]`; at counter 3 the
collection `[9]` is kept and merged. -/
theorem claim_C8_periodic_reload_witness :
    ((⟨[4], [4], 1, 10⟩ : QState).attempts % 10 = 0) ∧
    loopStep (fun c => [5]) 1 1 2 1 1 (1/2) ⟨[4], [4], 1, 10⟩ =
      ⟨[4, 5], [4, 5], 2, 11⟩ ∧
    ((⟨[9], [4], 1, 3⟩ : QState).attempts % 10 ≠ 0) ∧
    loopStep (fun c => [5]) 1 1 2 1 1 (1/2) ⟨[9], [4], 1, 3⟩ =
      ⟨[5, 9], [4, 5], 2, 4⟩ :=
  ⟨by decide,
   ((claim_C8_periodic_reload (fun c => [5]) 1 1 2 1 1 (1/2) ⟨[4], [4], 1, 10⟩).1
     (by decide)).trans
     (by norm_num [insert_new_elements, sortList, List.insertionSort, List.orderedInsert]),
   by decide,
   ((claim_C8_periodic_reload (fun c => [5]) 1 1 2 1 1 (1/2) ⟨[9], [4], 1, 3⟩).2
     (by decide)).trans
     (by norm_num [insert_new_elements, sortList, List.insertionSort, List.orderedInsert])⟩

end CovXY
